import Mathlib

/-!
EKS OIDC identity provider planner

A shallow embedding of `pkg/eks/identityprovider/plan.go`: the method
`(*plan).Create` decides, from the observed and the desired identity provider
configuration, which procedures a reconciliation pass has to run.

Conventions of the embedding:

* a Go pointer `*T` is an `Option T`, `nil` being `none`; reading a field
  through a pointer is `deref`, which fails with `Panic.nilPointerDereference`
  on `none`;
* a Go `map[string]string` is a key-duplicate-free entry list (`Tags`);
* the result of `Create` is `Except Panic (procedures × error)`, the Go `error`
  being an `Option GoError` with `none` for `nil`;
* the five procedure structs that implement `planner.Procedure` are the five
  constructors of `Procedure`, each holding the plan it was built from.
-/

namespace identityprovider

/-! ## Data model -/

/-- A Go `map[string]string`, the representation of `infrav1.Tags`: finitely
many entries and no key twice. A nil map and an empty map are both the empty
entry list; `len`, `range` and indexing, the only operations the planner uses,
do not tell them apart. -/
structure Tags where
  entries : List (String × String)
  nodupKeys : (entries.map Prod.fst).Nodup

/-- Go `len(t)`. -/
def Tags.len (t : Tags) : Nat := t.entries.length

/-- Go `v, ok := t[k]`: `some v` when the key is present, `none` otherwise. -/
def Tags.get (t : Tags) (k : String) : Option String := t.entries.lookup k

/-- Modelled from the spec: the method `Tags.Difference`, declared outside
`plan.go`. For every key `k` of `t` with value `v`, the result holds `(k, v)`
when `k` is absent from `other` or `other[k] != v`; keys that only `other` has
are not included. -/
def Tags.Difference (t other : Tags) : Tags :=
  ⟨t.entries.filter (fun e => !(other.get e.1 == some e.2)),
    (t.nodupKeys).sublist ((List.filter_sublist t.entries).map Prod.fst)⟩

/-- The struct `OidcIdentityProviderConfig`, whose declaration is outside
`plan.go`. `Status` and `Tags` are the two fields the planner reads; every
other field (the configuration-defining parameters that `IsEqual` compares) is
kept abstractly in `params`. -/
structure OidcIdentityProviderConfig (Params : Type) where
  params : Params
  Status : Option String
  Tags : Tags

/-- The aws-sdk-go helper `aws.StringValue`: the pointed-to string, or the
empty string for a nil pointer. -/
def StringValue (v : Option String) : String :=
  match v with
  | some s => s
  | none => ""

/-- The aws-sdk-go constant `eks.ConfigStatusActive`. -/
def ConfigStatusActive : String := "ACTIVE"

/-- The aws-sdk-go constant `eks.ConfigStatusCreating`. -/
def ConfigStatusCreating : String := "CREATING"

/-- The aws-sdk-go constant `eks.ConfigStatusDeleting`. -/
def ConfigStatusDeleting : String := "DELETING"

/-- The struct `plan`. The EKS client and the logger are opaque to the planner
and are kept as values of arbitrary types. -/
structure plan (Params Client Logger : Type) where
  currentIdentityProvider : Option (OidcIdentityProviderConfig Params)
  desiredIdentityProvider : Option (OidcIdentityProviderConfig Params)
  eksClient : Client
  log : Logger
  clusterName : String

/-- The function `NewPlan`. -/
def NewPlan {Params Client Logger : Type} (clusterName : String)
    (currentIdentityProvider desiredIdentityProvider : Option (OidcIdentityProviderConfig Params))
    (client : Client) (log : Logger) : plan Params Client Logger :=
  { currentIdentityProvider := currentIdentityProvider
    desiredIdentityProvider := desiredIdentityProvider
    eksClient := client
    clusterName := clusterName
    log := log }

/-- The interface `planner.Procedure` as the planner populates it: one
constructor per procedure struct, each with its `plan` field. -/
inductive Procedure (Params Client Logger : Type) where
  | AssociateIdentityProviderProcedure (plan : plan Params Client Logger)
  | DisassociateIdentityProviderConfig (plan : plan Params Client Logger)
  | UpdatedIdentityProviderTagsProcedure (plan : plan Params Client Logger)
  | RemoveIdentityProviderTagsProcedure (plan : plan Params Client Logger)
  | WaitIdentityProviderAssociatedProcedure (plan : plan Params Client Logger)

/-- The kind of a procedure: which of the five structs it is. -/
inductive ProcedureKind where
  | Associate
  | Disassociate
  | UpdateTags
  | RemoveTags
  | WaitUntilAssociated
  deriving DecidableEq, Repr

/-- The kind of a procedure, forgetting the plan it refers to. -/
def Procedure.kind {Params Client Logger : Type} :
    Procedure Params Client Logger → ProcedureKind
  | .AssociateIdentityProviderProcedure _ => .Associate
  | .DisassociateIdentityProviderConfig _ => .Disassociate
  | .UpdatedIdentityProviderTagsProcedure _ => .UpdateTags
  | .RemoveIdentityProviderTagsProcedure _ => .RemoveTags
  | .WaitIdentityProviderAssociatedProcedure _ => .WaitUntilAssociated

/-- The kinds of a procedure list, in order. -/
def kinds {Params Client Logger : Type} (ps : List (Procedure Params Client Logger)) :
    List ProcedureKind :=
  ps.map Procedure.kind

/-- A Go run-time panic. -/
inductive Panic where
  | nilPointerDereference
  deriving DecidableEq, Repr

/-- A non-nil Go `error` value. -/
structure GoError where
  msg : String
  deriving DecidableEq, Repr

/-- Reading through a pointer: the pointed-to value, or a panic on nil. -/
def deref {α : Type} (ptr : Option α) : Except Panic α :=
  match ptr with
  | some v => .ok v
  | none => .error .nilPointerDereference

/-! ## The planner -/

/-- The method `(*plan).Create`. The method `IsEqual` of
`OidcIdentityProviderConfig` is declared outside `plan.go` and is an argument
of the embedding: every result below holds for whatever it computes. -/
def Create {Params Client Logger : Type}
    (IsEqual : OidcIdentityProviderConfig Params → OidcIdentityProviderConfig Params → Bool)
    (p : plan Params Client Logger) :
    Except Panic (List (Procedure Params Client Logger) × Option GoError) :=
  let procedures : List (Procedure Params Client Logger) := []
  if p.desiredIdentityProvider.isNone && p.currentIdentityProvider.isNone then
    .ok (procedures, none)
  else if p.desiredIdentityProvider.isNone then
    (deref p.currentIdentityProvider).bind fun current =>
      let procedures :=
        if StringValue current.Status = ConfigStatusActive then
          procedures ++ [.DisassociateIdentityProviderConfig p]
        else procedures
      .ok (procedures, none)
  else if p.currentIdentityProvider.isNone then
    let procedures := procedures ++ [.AssociateIdentityProviderProcedure p]
    .ok (procedures, none)
  else
    (deref p.currentIdentityProvider).bind fun current =>
    (deref p.desiredIdentityProvider).bind fun desired =>
      if IsEqual current desired then
        let tagsDiff := desired.Tags.Difference current.Tags
        let procedures :=
          if tagsDiff.len > 0 then
            procedures ++ [.UpdatedIdentityProviderTagsProcedure p]
          else procedures
        let procedures :=
          if desired.Tags.len = 0 ∧ current.Tags.len ≠ 0 then
            procedures ++ [.RemoveIdentityProviderTagsProcedure p]
          else procedures
        if StringValue current.Status = ConfigStatusActive then
          .ok (procedures, none)
        else if StringValue current.Status = ConfigStatusCreating then
          let procedures := procedures ++ [.WaitIdentityProviderAssociatedProcedure p]
          .ok (procedures, none)
        else
          .ok (procedures, none)
      else
        let procedures := procedures ++ [.DisassociateIdentityProviderConfig p]
        .ok (procedures, none)

/-- Modelled from the spec: a comparison of the configuration-defining fields
that ignores `Status` and `Tags`; one possible `IsEqual`, used for concrete
inputs. -/
def paramsEqual {Params : Type} [DecidableEq Params]
    (a b : OidcIdentityProviderConfig Params) : Bool :=
  decide (a.params = b.params)

/-! ## Concrete inputs -/

/-- The tag map `{a:1}`. -/
def tagsA : Tags := ⟨[("a", "1")], by simp⟩

/-- The tag map `{a:1, b:2}`. -/
def tagsAB : Tags := ⟨[("a", "1"), ("b", "2")], by simp⟩

/-- The empty tag map. -/
def tagsEmpty : Tags := ⟨[], by simp⟩

/-- A configuration with issuer parameter `iss`, the given status and tags. -/
def cfg (iss : String) (status : Option String) (tags : Tags) :
    OidcIdentityProviderConfig String :=
  { params := iss, Status := status, Tags := tags }

/-- A plan for cluster `c1` over the two given snapshots. -/
def mkPlan (current desired : Option (OidcIdentityProviderConfig String)) :
    plan String Unit Unit :=
  NewPlan "c1" current desired () ()


/-! ## Facts about tag maps -/

theorem lookup_mem {l : List (String × String)} {k v : String}
    (h : l.lookup k = some v) : (k, v) ∈ l := by
  induction l with
  | nil => simp at h
  | cons e l ih =>
    obtain ⟨a, b⟩ := e
    by_cases hk : k = a
    · subst hk
      simp [List.lookup] at h
      simp [h]
    · have hb : (k == a) = false := by simpa using hk
      simp only [List.lookup, hb] at h
      exact List.mem_cons_of_mem _ (ih h)

theorem mem_lookup {l : List (String × String)} {k v : String}
    (hn : (l.map Prod.fst).Nodup) (h : (k, v) ∈ l) : l.lookup k = some v := by
  induction l with
  | nil => simp at h
  | cons e l ih =>
    obtain ⟨a, b⟩ := e
    simp only [List.map_cons, List.nodup_cons] at hn
    rcases List.mem_cons.mp h with heq | hmem
    · cases heq
      simp [List.lookup]
    · have hk : k ≠ a := by
        rintro rfl
        exact hn.1 (List.mem_map_of_mem Prod.fst hmem)
      have hb : (k == a) = false := by simpa using hk
      simp only [List.lookup, hb]
      exact ih hn.2 hmem

theorem Tags.get_eq_some_iff (t : Tags) (k v : String) :
    t.get k = some v ↔ (k, v) ∈ t.entries :=
  ⟨lookup_mem, mem_lookup t.nodupKeys⟩

theorem Tags.len_eq_zero_iff (t : Tags) : t.len = 0 ↔ ∀ k, t.get k = none := by
  unfold Tags.len
  constructor
  · intro h k
    have : t.entries = [] := List.length_eq_zero.mp h
    simp [Tags.get, this]
  · intro h
    rcases hl : t.entries with _ | ⟨⟨a, b⟩, l⟩
    · rfl
    · have := h a
      simp [Tags.get, hl, List.lookup] at this

theorem Tags.mem_Difference (t other : Tags) (k v : String) :
    (t.Difference other).get k = some v ↔ t.get k = some v ∧ other.get k ≠ some v := by
  rw [Tags.get_eq_some_iff, Tags.get_eq_some_iff]
  simp [Tags.Difference, List.mem_filter]

theorem Tags.Difference_len_pos_iff (t other : Tags) :
    0 < (t.Difference other).len ↔ ∃ k v, t.get k = some v ∧ other.get k ≠ some v := by
  constructor
  · intro h
    rcases hl : (t.Difference other).entries with _ | ⟨⟨a, b⟩, l⟩
    · simp [Tags.len, hl] at h
    · refine ⟨a, b, ?_⟩
      rw [← Tags.mem_Difference, Tags.get_eq_some_iff, hl]
      simp
  · rintro ⟨k, v, h⟩
    rw [← Tags.mem_Difference, Tags.get_eq_some_iff] at h
    exact List.length_pos_of_mem h

theorem Tags.Difference_len_zero_of_same (t other : Tags)
    (h : ∀ k, t.get k = other.get k) : (t.Difference other).len = 0 := by
  by_contra hne
  obtain ⟨k, v, h1, h2⟩ := (Tags.Difference_len_pos_iff t other).mp (Nat.pos_of_ne_zero hne)
  exact h2 (h k ▸ h1)

theorem Tags.Difference_len_zero_of_empty (t other : Tags)
    (h : t.len = 0) : (t.Difference other).len = 0 := by
  by_contra hne
  obtain ⟨k, v, h1, _⟩ := (Tags.Difference_len_pos_iff t other).mp (Nat.pos_of_ne_zero hne)
  rw [(Tags.len_eq_zero_iff t).mp h k] at h1
  cases h1

theorem Tags.len_eq_of_same_empty (t other : Tags)
    (h : ∀ k, t.get k = other.get k) (h0 : t.len = 0) : other.len = 0 :=
  (Tags.len_eq_zero_iff other).mpr fun k => (h k).symm.trans ((Tags.len_eq_zero_iff t).mp h0 k)


/-! ## Facts about the planner -/

theorem StringValue_eq_Active (s : Option String) :
    StringValue s = ConfigStatusActive ↔ s = some ConfigStatusActive := by
  cases s with
  | none => simp [StringValue, ConfigStatusActive]
  | some v => simp [StringValue]

theorem StringValue_eq_Creating (s : Option String) :
    StringValue s = ConfigStatusCreating ↔ s = some ConfigStatusCreating := by
  cases s with
  | none => simp [StringValue, ConfigStatusCreating]
  | some v => simp [StringValue]

theorem Active_ne_Creating : ConfigStatusActive ≠ ConfigStatusCreating := by decide

variable {Params Client Logger : Type}
variable (IsEqual : OidcIdentityProviderConfig Params → OidcIdentityProviderConfig Params → Bool)
variable (p : plan Params Client Logger)
variable (current desired : OidcIdentityProviderConfig Params)

/-- The result of `Create` when only the current configuration is present. -/
theorem Create_desired_nil
    (hc : p.currentIdentityProvider = some current) (hd : p.desiredIdentityProvider = none) :
    Create IsEqual p =
      .ok (if current.Status = some ConfigStatusActive then
            [.DisassociateIdentityProviderConfig p] else [], none) := by
  simp only [Create, hc, hd, deref, Except.bind, ← StringValue_eq_Active]
  split_ifs <;> simp_all

/-- The result of `Create` when both configurations are present and `IsEqual`
holds: the tag procedures, then the wait procedure. -/
theorem Create_equal
    (hc : p.currentIdentityProvider = some current) (hd : p.desiredIdentityProvider = some desired)
    (he : IsEqual current desired = true) :
    Create IsEqual p =
      .ok ((if 0 < (desired.Tags.Difference current.Tags).len then
              [.UpdatedIdentityProviderTagsProcedure p] else []) ++
           (if desired.Tags.len = 0 ∧ current.Tags.len ≠ 0 then
              [.RemoveIdentityProviderTagsProcedure p] else []) ++
           (if current.Status = some ConfigStatusCreating then
              [.WaitIdentityProviderAssociatedProcedure p] else []), none) := by
  have hac := Active_ne_Creating
  simp only [Create, hc, hd, deref, Except.bind, he, ← StringValue_eq_Creating]
  split_ifs <;> simp_all

/-- The result of `Create` when both configurations are present and `IsEqual`
fails. -/
theorem Create_not_equal
    (hc : p.currentIdentityProvider = some current) (hd : p.desiredIdentityProvider = some desired)
    (he : IsEqual current desired = false) :
    Create IsEqual p = .ok ([.DisassociateIdentityProviderConfig p], none) := by
  simp [Create, hc, hd, deref, Except.bind, he]

/-- The result of `Create` when only the desired configuration is present. -/
theorem Create_current_nil
    (hc : p.currentIdentityProvider = none) (hd : p.desiredIdentityProvider = some desired) :
    Create IsEqual p = .ok ([.AssociateIdentityProviderProcedure p], none) := by
  simp [Create, hc, hd]

/-- The result of `Create` when both configurations are absent. -/
theorem Create_both_nil
    (hc : p.currentIdentityProvider = none) (hd : p.desiredIdentityProvider = none) :
    Create IsEqual p = .ok ([], none) := by
  simp [Create, hc, hd]

/-- Every plan is one of eight lists of kinds. -/
theorem Create_kinds_cases :
    ∃ procs, Create IsEqual p = .ok (procs, none) ∧
      kinds procs ∈ ([[], [.Associate], [.Disassociate], [.UpdateTags], [.RemoveTags], [.WaitUntilAssociated],
        [.UpdateTags, .WaitUntilAssociated], [.RemoveTags, .WaitUntilAssociated]] :
          List (List ProcedureKind)) := by
  rcases hc : p.currentIdentityProvider with _ | cur <;>
    rcases hd : p.desiredIdentityProvider with _ | des
  · exact ⟨_, Create_both_nil IsEqual p hc hd, by simp [kinds]⟩
  · exact ⟨_, Create_current_nil IsEqual p des hc hd, by simp [kinds, Procedure.kind]⟩
  · refine ⟨_, Create_desired_nil IsEqual p cur hc hd, ?_⟩
    split_ifs <;> simp [kinds, Procedure.kind]
  · cases he : IsEqual cur des
    · exact ⟨_, Create_not_equal IsEqual p cur des hc hd he, by simp [kinds, Procedure.kind]⟩
    · refine ⟨_, Create_equal IsEqual p cur des hc hd he, ?_⟩
      by_cases h0 : des.Tags.len = 0
      · have hz := Tags.Difference_len_zero_of_empty des.Tags cur.Tags h0
        simp only [hz, h0]
        split_ifs <;> simp_all [kinds, Procedure.kind]
      · simp only [h0]
        split_ifs <;> simp_all [kinds, Procedure.kind]



/-! ## The planning contract -/

/-- C1 (replacement): when both configurations are present and `IsEqual` is
false, `Create` returns exactly `[Disassociate]` with a nil error, whatever the
status of the current configuration and whatever the two tag maps hold. -/
theorem Create_replacement
    (hc : p.currentIdentityProvider = some current) (hd : p.desiredIdentityProvider = some desired)
    (hne : IsEqual current desired = false) :
    Create IsEqual p = .ok ([.DisassociateIdentityProviderConfig p], none) :=
  Create_not_equal IsEqual p current desired hc hd hne

/-- Replacement at a concrete input: issuers differ, the current configuration
is still being created and the tag maps differ. -/
theorem Create_replacement_witness :
    paramsEqual (cfg "x" (some "CREATING") tagsA) (cfg "y" none tagsAB) = false ∧
    Create paramsEqual
        (mkPlan (some (cfg "x" (some "CREATING") tagsA)) (some (cfg "y" none tagsAB))) =
      .ok ([.DisassociateIdentityProviderConfig
        (mkPlan (some (cfg "x" (some "CREATING") tagsA)) (some (cfg "y" none tagsAB)))], none) :=
  ⟨by decide, Create_replacement paramsEqual _ _ _ rfl rfl (by decide)⟩

/-- C2 (creation): when the current configuration is nil and the desired one
is present, `Create` returns exactly `[Associate]` with a nil error, whatever
the desired configuration holds. -/
theorem Create_creation
    (hc : p.currentIdentityProvider = none) (hd : p.desiredIdentityProvider = some desired) :
    Create IsEqual p = .ok ([.AssociateIdentityProviderProcedure p], none) :=
  Create_current_nil IsEqual p desired hc hd

/-- Creation at a concrete input. -/
theorem Create_creation_witness :
    Create paramsEqual (mkPlan none (some (cfg "x" (some "DELETING") tagsAB))) =
      .ok ([.AssociateIdentityProviderProcedure
        (mkPlan none (some (cfg "x" (some "DELETING") tagsAB)))], none) :=
  Create_creation paramsEqual _ _ rfl rfl

/-- C3 (deletion of an active resource): when the desired configuration is nil
and the current one is present with status Active, `Create` returns exactly
`[Disassociate]` with a nil error. -/
theorem Create_deletion_active
    (hc : p.currentIdentityProvider = some current) (hd : p.desiredIdentityProvider = none)
    (hs : current.Status = some ConfigStatusActive) :
    Create IsEqual p = .ok ([.DisassociateIdentityProviderConfig p], none) := by
  rw [Create_desired_nil IsEqual p current hc hd, if_pos hs]

/-- Deletion of an active resource at a concrete input. -/
theorem Create_deletion_active_witness :
    Create paramsEqual (mkPlan (some (cfg "x" (some "ACTIVE") tagsA)) none) =
      .ok ([.DisassociateIdentityProviderConfig
        (mkPlan (some (cfg "x" (some "ACTIVE") tagsA)) none)], none) :=
  Create_deletion_active paramsEqual _ _ rfl rfl rfl

/-- C4 (deletion in flight): when the desired configuration is nil and the
current one is present with a status other than Active (Creating, Deleting,
a nil status or any other string), `Create` returns the empty list with a nil
error. -/
theorem Create_deletion_in_flight
    (hc : p.currentIdentityProvider = some current) (hd : p.desiredIdentityProvider = none)
    (hs : current.Status ≠ some ConfigStatusActive) :
    Create IsEqual p = .ok ([], none) := by
  rw [Create_desired_nil IsEqual p current hc hd, if_neg hs]

/-- Deletion in flight at concrete inputs: a nil status, and Deleting. -/
theorem Create_deletion_in_flight_witness :
    Create paramsEqual (mkPlan (some (cfg "x" none tagsA)) none) = .ok ([], none) ∧
    Create paramsEqual (mkPlan (some (cfg "x" (some ConfigStatusDeleting) tagsA)) none) =
      .ok ([], none) :=
  ⟨Create_deletion_in_flight paramsEqual _ _ rfl rfl (by decide),
   Create_deletion_in_flight paramsEqual _ _ rfl rfl (by decide)⟩

/-- C5 (no-op stability): when both configurations are present, `IsEqual`
holds, the status is Active and the two tag maps have the same keys with the
same values, `Create` returns the empty list with a nil error. -/
theorem Create_noop
    (hc : p.currentIdentityProvider = some current) (hd : p.desiredIdentityProvider = some desired)
    (he : IsEqual current desired = true) (hs : current.Status = some ConfigStatusActive)
    (ht : ∀ k, desired.Tags.get k = current.Tags.get k) :
    Create IsEqual p = .ok ([], none) := by
  have hz := Tags.Difference_len_zero_of_same desired.Tags current.Tags ht
  have hr : ¬ (desired.Tags.len = 0 ∧ current.Tags.len ≠ 0) := fun h =>
    h.2 (Tags.len_eq_of_same_empty desired.Tags current.Tags ht h.1)
  have hw : current.Status ≠ some ConfigStatusCreating := by
    rw [hs]
    decide
  rw [Create_equal IsEqual p current desired hc hd he, hz, if_neg (lt_irrefl 0), if_neg hr,
    if_neg hw]
  rfl

/-- No-op stability at two concrete inputs: equal non-empty tag maps, and both
tag maps empty. -/
theorem Create_noop_witness :
    Create paramsEqual
        (mkPlan (some (cfg "x" (some "ACTIVE") tagsAB)) (some (cfg "x" none tagsAB))) =
      .ok ([], none) ∧
    Create paramsEqual
        (mkPlan (some (cfg "x" (some "ACTIVE") tagsEmpty)) (some (cfg "x" none tagsEmpty))) =
      .ok ([], none) :=
  ⟨Create_noop paramsEqual _ _ _ rfl rfl (by decide) rfl (fun _ => rfl),
   Create_noop paramsEqual _ _ _ rfl rfl (by decide) rfl (fun _ => rfl)⟩


/-- C6 (tag update): when both configurations are present, `IsEqual` holds and
the status is Active, if some key of the desired tags is absent from the
current tags or has another value there, then the tag difference is non-empty
and `Create` returns exactly `[UpdateTags]` with a nil error. -/
theorem Create_tag_update
    (hc : p.currentIdentityProvider = some current) (hd : p.desiredIdentityProvider = some desired)
    (he : IsEqual current desired = true) (hs : current.Status = some ConfigStatusActive)
    (ht : ∃ k v, desired.Tags.get k = some v ∧ current.Tags.get k ≠ some v) :
    0 < (desired.Tags.Difference current.Tags).len ∧
    Create IsEqual p = .ok ([.UpdatedIdentityProviderTagsProcedure p], none) := by
  have hpos := (Tags.Difference_len_pos_iff desired.Tags current.Tags).mpr ht
  have hr : ¬ (desired.Tags.len = 0 ∧ current.Tags.len ≠ 0) := fun h =>
    absurd (Tags.Difference_len_zero_of_empty desired.Tags current.Tags h.1) (Nat.ne_of_gt hpos)
  have hw : current.Status ≠ some ConfigStatusCreating := by
    rw [hs]
    decide
  refine ⟨hpos, ?_⟩
  rw [Create_equal IsEqual p current desired hc hd he, if_pos hpos, if_neg hr, if_neg hw]
  rfl

/-- Tag update at the input of the claim: desired tags `{a:1, b:2}`, current
tags `{a:1}`, whose difference is `{b:2}`. -/
theorem Create_tag_update_witness :
    (tagsAB.Difference tagsA).entries = [("b", "2")] ∧
    Create paramsEqual
        (mkPlan (some (cfg "x" (some "ACTIVE") tagsA)) (some (cfg "x" none tagsAB))) =
      .ok ([.UpdatedIdentityProviderTagsProcedure
        (mkPlan (some (cfg "x" (some "ACTIVE") tagsA)) (some (cfg "x" none tagsAB)))], none) :=
  ⟨by decide,
   (Create_tag_update paramsEqual _ _ _ rfl rfl (by decide) rfl
      ⟨"b", "2", by decide, by decide⟩).2⟩

/-- C7 (tag removal): when both configurations are present, `IsEqual` holds,
the status is Active, the desired tags are empty and the current tags are not,
`Create` returns exactly `[RemoveTags]` with a nil error. -/
theorem Create_tag_removal
    (hc : p.currentIdentityProvider = some current) (hd : p.desiredIdentityProvider = some desired)
    (he : IsEqual current desired = true) (hs : current.Status = some ConfigStatusActive)
    (h0 : desired.Tags.len = 0) (h1 : current.Tags.len ≠ 0) :
    Create IsEqual p = .ok ([.RemoveIdentityProviderTagsProcedure p], none) := by
  have hz := Tags.Difference_len_zero_of_empty desired.Tags current.Tags h0
  have hw : current.Status ≠ some ConfigStatusCreating := by
    rw [hs]
    decide
  rw [Create_equal IsEqual p current desired hc hd he, hz, if_neg (lt_irrefl 0),
    if_pos ⟨h0, h1⟩, if_neg hw]
  rfl

/-- Tag removal at the input of the claim: desired tags `{}`, current tags
`{a:1}`. -/
theorem Create_tag_removal_witness :
    Create paramsEqual
        (mkPlan (some (cfg "x" (some "ACTIVE") tagsA)) (some (cfg "x" none tagsEmpty))) =
      .ok ([.RemoveIdentityProviderTagsProcedure
        (mkPlan (some (cfg "x" (some "ACTIVE") tagsA)) (some (cfg "x" none tagsEmpty)))], none) :=
  Create_tag_removal paramsEqual _ _ _ rfl rfl (by decide) rfl (by decide) (by decide)

/-- C8 (waiting): when both configurations are present, `IsEqual` holds, the
status is Creating and the two tag maps have the same keys with the same
values, `Create` returns exactly `[WaitIdentityProviderAssociated]` with a nil
error. -/
theorem Create_waiting
    (hc : p.currentIdentityProvider = some current) (hd : p.desiredIdentityProvider = some desired)
    (he : IsEqual current desired = true) (hs : current.Status = some ConfigStatusCreating)
    (ht : ∀ k, desired.Tags.get k = current.Tags.get k) :
    Create IsEqual p = .ok ([.WaitIdentityProviderAssociatedProcedure p], none) := by
  have hz := Tags.Difference_len_zero_of_same desired.Tags current.Tags ht
  have hr : ¬ (desired.Tags.len = 0 ∧ current.Tags.len ≠ 0) := fun h =>
    h.2 (Tags.len_eq_of_same_empty desired.Tags current.Tags ht h.1)
  rw [Create_equal IsEqual p current desired hc hd he, hz, if_neg (lt_irrefl 0), if_neg hr,
    if_pos hs]
  rfl

/-- Waiting at a concrete input. -/
theorem Create_waiting_witness :
    Create paramsEqual
        (mkPlan (some (cfg "x" (some "CREATING") tagsAB)) (some (cfg "x" none tagsAB))) =
      .ok ([.WaitIdentityProviderAssociatedProcedure
        (mkPlan (some (cfg "x" (some "CREATING") tagsAB)) (some (cfg "x" none tagsAB)))], none) :=
  Create_waiting paramsEqual _ _ _ rfl rfl (by decide) rfl (fun _ => rfl)

/-- C9 (Associate and Disassociate are mutually exclusive): for every input,
`Create` returns a list with a nil error, and that list never holds both an
Associate and a Disassociate procedure. -/
theorem Create_associate_disassociate_exclusive :
    ∃ procs, Create IsEqual p = .ok (procs, none) ∧
      ¬ (ProcedureKind.Associate ∈ kinds procs ∧ ProcedureKind.Disassociate ∈ kinds procs) := by
  obtain ⟨procs, h, hk⟩ := Create_kinds_cases IsEqual p
  refine ⟨procs, h, ?_⟩
  generalize kinds procs = ks at hk
  simp only [List.mem_cons, List.mem_singleton, List.not_mem_nil, or_false] at hk
  rcases hk with rfl | rfl | rfl | rfl | rfl | rfl | rfl | rfl <;> decide

/-- C10 (ordering of the wait step): for every input, `Create` returns a list
with a nil error, and if that list holds a WaitUntilAssociated procedure then
it holds exactly one, it is the last element, and every UpdateTags or
RemoveTags procedure of the list stands before it. -/
theorem Create_wait_last :
    ∃ procs, Create IsEqual p = .ok (procs, none) ∧
      (ProcedureKind.WaitUntilAssociated ∈ kinds procs →
        (kinds procs).count .WaitUntilAssociated = 1 ∧
        (kinds procs).getLast? = some .WaitUntilAssociated ∧
        ∀ i j : Fin (kinds procs).length,
          ((kinds procs).get i = .UpdateTags ∨ (kinds procs).get i = .RemoveTags) →
          (kinds procs).get j = .WaitUntilAssociated → i < j) := by
  obtain ⟨procs, h, hk⟩ := Create_kinds_cases IsEqual p
  refine ⟨procs, h, ?_⟩
  generalize kinds procs = ks at hk
  simp only [List.mem_cons, List.mem_singleton, List.not_mem_nil, or_false] at hk
  rcases hk with rfl | rfl | rfl | rfl | rfl | rfl | rfl | rfl <;> decide

/-- Ordering of the wait step at a concrete input whose plan is
`[RemoveTags, WaitUntilAssociated]`. -/
theorem Create_wait_last_witness :
    ∃ procs,
      Create paramsEqual
        (mkPlan (some (cfg "x" (some "CREATING") tagsA)) (some (cfg "x" none tagsEmpty))) =
        .ok (procs, none) ∧
      kinds procs = [.RemoveTags, .WaitUntilAssociated] ∧
      (kinds procs).count .WaitUntilAssociated = 1 ∧
      (kinds procs).getLast? = some .WaitUntilAssociated := by
  obtain ⟨procs, h, hw⟩ := Create_wait_last paramsEqual
    (mkPlan (some (cfg "x" (some "CREATING") tagsA)) (some (cfg "x" none tagsEmpty)))
  have hk : kinds procs = [.RemoveTags, .WaitUntilAssociated] := by
    have h2 : Create paramsEqual
        (mkPlan (some (cfg "x" (some "CREATING") tagsA)) (some (cfg "x" none tagsEmpty))) =
        .ok ([.RemoveIdentityProviderTagsProcedure _,
              .WaitIdentityProviderAssociatedProcedure _], none) := rfl
    rw [h2] at h
    cases h
    rfl
  have hm : ProcedureKind.WaitUntilAssociated ∈ kinds procs := by
    rw [hk]
    decide
  exact ⟨procs, h, hk, (hw hm).1, (hw hm).2.1⟩


/-- C11 (no failure): for every input, each of the two configurations being
nil or present with any status and tags, `Create` returns a procedure list,
possibly empty, together with a nil error. -/
theorem Create_never_fails :
    ∃ procs, Create IsEqual p = .ok (procs, none) := by
  obtain ⟨procs, h, _⟩ := Create_kinds_cases IsEqual p
  exact ⟨procs, h⟩

/-- C12 (both absent): when the current and the desired configuration are both
nil, `Create` returns the empty list with a nil error. -/
theorem Create_both_absent
    (hc : p.currentIdentityProvider = none) (hd : p.desiredIdentityProvider = none) :
    Create IsEqual p = .ok ([], none) :=
  Create_both_nil IsEqual p hc hd

/-- Both absent at a concrete input. -/
theorem Create_both_absent_witness :
    Create paramsEqual (mkPlan none none) = .ok ([], none) :=
  Create_both_absent paramsEqual _ rfl rfl

/-- C13 (UpdateTags and RemoveTags are mutually exclusive): for every input,
`Create` returns a list with a nil error that never holds both an UpdateTags
and a RemoveTags procedure; the reason is that the difference of an empty tag
map with any tag map is empty. -/
theorem Create_update_remove_exclusive :
    (∃ procs, Create IsEqual p = .ok (procs, none) ∧
      ¬ (ProcedureKind.UpdateTags ∈ kinds procs ∧ ProcedureKind.RemoveTags ∈ kinds procs)) ∧
    (∀ t other : Tags, t.len = 0 → (t.Difference other).len = 0) := by
  refine ⟨?_, Tags.Difference_len_zero_of_empty⟩
  obtain ⟨procs, h, hk⟩ := Create_kinds_cases IsEqual p
  refine ⟨procs, h, ?_⟩
  generalize kinds procs = ks at hk
  simp only [List.mem_cons, List.mem_singleton, List.not_mem_nil, or_false] at hk
  rcases hk with rfl | rfl | rfl | rfl | rfl | rfl | rfl | rfl <;> decide

/-- C14 (the plan depends on the two snapshots only): two plans built by
`NewPlan` from the same current and desired configurations, with any cluster
names, clients and loggers, make `Create` return lists with the same kinds in
the same order; and `Create` on one plan has one result. -/
theorem Create_depends_on_snapshots_only {Client2 Logger2 : Type}
    (cur des : Option (OidcIdentityProviderConfig Params))
    (name1 name2 : String) (client1 : Client) (client2 : Client2)
    (log1 : Logger) (log2 : Logger2) :
    (∃ ps1 ps2,
      Create IsEqual (NewPlan name1 cur des client1 log1) = .ok (ps1, none) ∧
      Create IsEqual (NewPlan name2 cur des client2 log2) = .ok (ps2, none) ∧
      kinds ps1 = kinds ps2) ∧
    (∀ r1 r2, Create IsEqual (NewPlan name1 cur des client1 log1) = r1 →
      Create IsEqual (NewPlan name1 cur des client1 log1) = r2 → r1 = r2) := by
  refine ⟨?_, fun r1 r2 h1 h2 => h1.symm.trans h2⟩
  rcases cur with _ | c <;> rcases des with _ | d
  · exact ⟨_, _, Create_both_nil IsEqual _ rfl rfl, Create_both_nil IsEqual _ rfl rfl, rfl⟩
  · exact ⟨_, _, Create_current_nil IsEqual _ d rfl rfl, Create_current_nil IsEqual _ d rfl rfl,
      rfl⟩
  · refine ⟨_, _, Create_desired_nil IsEqual _ c rfl rfl, Create_desired_nil IsEqual _ c rfl rfl,
      ?_⟩
    split_ifs <;> rfl
  · cases he : IsEqual c d
    · exact ⟨_, _, Create_not_equal IsEqual _ c d rfl rfl he,
        Create_not_equal IsEqual _ c d rfl rfl he, rfl⟩
    · refine ⟨_, _, Create_equal IsEqual _ c d rfl rfl he, Create_equal IsEqual _ c d rfl rfl he,
        ?_⟩
      split_ifs <;> rfl

/-- C15 (fallthrough equals the Active branch): when both configurations are
present, `IsEqual` holds and the status is not Creating (Deleting, nil or any
other string; Active itself is covered too), `Create` returns only the tag
procedures, UpdateTags and RemoveTags each under its own condition, and the
kinds are those of the list it returns for the same configurations with status
Active. -/
theorem Create_fallthrough_as_active
    (hc : p.currentIdentityProvider = some current) (hd : p.desiredIdentityProvider = some desired)
    (he : IsEqual current desired = true)
    (heA : IsEqual { current with Status := some ConfigStatusActive } desired = true)
    (hsC : current.Status ≠ some ConfigStatusCreating) :
    ∃ ps psA,
      Create IsEqual p = .ok (ps, none) ∧
      Create IsEqual
        { p with
          currentIdentityProvider := some { current with Status := some ConfigStatusActive } } =
        .ok (psA, none) ∧
      kinds ps = kinds psA ∧
      ps = (if 0 < (desired.Tags.Difference current.Tags).len then
              [.UpdatedIdentityProviderTagsProcedure p] else []) ++
           (if desired.Tags.len = 0 ∧ current.Tags.len ≠ 0 then
              [.RemoveIdentityProviderTagsProcedure p] else []) := by
  have hw : (some ConfigStatusActive : Option String) ≠ some ConfigStatusCreating := by decide
  refine ⟨_, _, Create_equal IsEqual p current desired hc hd he,
    Create_equal IsEqual _ { current with Status := some ConfigStatusActive } desired rfl hd heA,
    ?_, ?_⟩
  · simp only [if_neg hsC, if_neg hw]
    split_ifs <;> rfl
  · simp only [if_neg hsC, List.append_nil]

/-- Fallthrough at a concrete input: status Deleting, desired tags
`{a:1, b:2}`, current tags `{a:1}`; the plan is `[UpdateTags]`, as under
Active. -/
theorem Create_fallthrough_as_active_witness :
    ∃ ps psA,
      Create paramsEqual
        (mkPlan (some (cfg "x" (some "DELETING") tagsA)) (some (cfg "x" none tagsAB))) =
        .ok (ps, none) ∧
      Create paramsEqual
        (mkPlan (some (cfg "x" (some "ACTIVE") tagsA)) (some (cfg "x" none tagsAB))) =
        .ok (psA, none) ∧
      kinds ps = kinds psA ∧ kinds ps = [.UpdateTags] := by
  obtain ⟨ps, psA, h1, h2, h3, h4⟩ := Create_fallthrough_as_active paramsEqual
    (mkPlan (some (cfg "x" (some "DELETING") tagsA)) (some (cfg "x" none tagsAB)))
    (cfg "x" (some "DELETING") tagsA) (cfg "x" none tagsAB) rfl rfl
    (by decide) (by decide) (by decide)
  refine ⟨ps, psA, h1, h2, h3, ?_⟩
  rw [h4]
  rfl

/-- C16 (tag changes are issued while waiting): when both configurations are
present, `IsEqual` holds and the status is Creating, a non-empty tag
difference gives exactly `[UpdateTags, WaitUntilAssociated]`, and empty
desired tags with non-empty current tags give exactly
`[RemoveTags, WaitUntilAssociated]`, each with a nil error. -/
theorem Create_tags_while_waiting
    (hc : p.currentIdentityProvider = some current) (hd : p.desiredIdentityProvider = some desired)
    (he : IsEqual current desired = true) (hs : current.Status = some ConfigStatusCreating) :
    (0 < (desired.Tags.Difference current.Tags).len →
      Create IsEqual p = .ok ([.UpdatedIdentityProviderTagsProcedure p,
        .WaitIdentityProviderAssociatedProcedure p], none)) ∧
    (desired.Tags.len = 0 → current.Tags.len ≠ 0 →
      Create IsEqual p = .ok ([.RemoveIdentityProviderTagsProcedure p,
        .WaitIdentityProviderAssociatedProcedure p], none)) := by
  constructor
  · intro hpos
    have hr : ¬ (desired.Tags.len = 0 ∧ current.Tags.len ≠ 0) := fun h =>
      absurd (Tags.Difference_len_zero_of_empty desired.Tags current.Tags h.1)
        (Nat.ne_of_gt hpos)
    rw [Create_equal IsEqual p current desired hc hd he, if_pos hpos, if_neg hr, if_pos hs]
    rfl
  · intro h0 h1
    have hz := Tags.Difference_len_zero_of_empty desired.Tags current.Tags h0
    rw [Create_equal IsEqual p current desired hc hd he, hz, if_neg (lt_irrefl 0),
      if_pos ⟨h0, h1⟩, if_pos hs]
    rfl

/-- Tag changes while waiting at two concrete inputs: desired `{a:1, b:2}`
over current `{a:1}`, and desired `{}` over current `{a:1}`. -/
theorem Create_tags_while_waiting_witness :
    Create paramsEqual
        (mkPlan (some (cfg "x" (some "CREATING") tagsA)) (some (cfg "x" none tagsAB))) =
      .ok ([.UpdatedIdentityProviderTagsProcedure
              (mkPlan (some (cfg "x" (some "CREATING") tagsA)) (some (cfg "x" none tagsAB))),
            .WaitIdentityProviderAssociatedProcedure
              (mkPlan (some (cfg "x" (some "CREATING") tagsA)) (some (cfg "x" none tagsAB)))],
           none) ∧
    Create paramsEqual
        (mkPlan (some (cfg "x" (some "CREATING") tagsA)) (some (cfg "x" none tagsEmpty))) =
      .ok ([.RemoveIdentityProviderTagsProcedure
              (mkPlan (some (cfg "x" (some "CREATING") tagsA)) (some (cfg "x" none tagsEmpty))),
            .WaitIdentityProviderAssociatedProcedure
              (mkPlan (some (cfg "x" (some "CREATING") tagsA)) (some (cfg "x" none tagsEmpty)))],
           none) :=
  ⟨(Create_tags_while_waiting paramsEqual _ _ _ rfl rfl (by decide) rfl).1 (by decide),
   (Create_tags_while_waiting paramsEqual _ _ _ rfl rfl (by decide) rfl).2 (by decide)
     (by decide)⟩

/-- C17 (characterisation of tear-down): for every input, `Create` returns a
list with a nil error; the list holds a Disassociate procedure exactly when
the current configuration is present and either the desired one is nil and
the status is Active, or the desired one is present and `IsEqual` is false;
and a list that holds Disassociate is exactly `[Disassociate]`. -/
theorem Create_disassociate_iff :
    ∃ procs, Create IsEqual p = .ok (procs, none) ∧
      (ProcedureKind.Disassociate ∈ kinds procs ↔
        ∃ cur, p.currentIdentityProvider = some cur ∧
          ((p.desiredIdentityProvider = none ∧ cur.Status = some ConfigStatusActive) ∨
           ∃ des, p.desiredIdentityProvider = some des ∧ IsEqual cur des = false)) ∧
      (ProcedureKind.Disassociate ∈ kinds procs →
        procs = [.DisassociateIdentityProviderConfig p]) := by
  rcases hc : p.currentIdentityProvider with _ | cur <;>
    rcases hd : p.desiredIdentityProvider with _ | des
  · exact ⟨_, Create_both_nil IsEqual p hc hd, by simp [kinds], by simp [kinds]⟩
  · exact ⟨_, Create_current_nil IsEqual p des hc hd, by simp [kinds, Procedure.kind],
      by simp [kinds, Procedure.kind]⟩
  · refine ⟨_, Create_desired_nil IsEqual p cur hc hd, ?_, ?_⟩ <;>
      split_ifs with hs <;> simp [kinds, Procedure.kind, hs]
  · cases he : IsEqual cur des
    · exact ⟨_, Create_not_equal IsEqual p cur des hc hd he, by simp [kinds, Procedure.kind, he],
        by simp [kinds, Procedure.kind]⟩
    · refine ⟨_, Create_equal IsEqual p cur des hc hd he, ?_, ?_⟩ <;>
        split_ifs <;> simp [kinds, Procedure.kind, he]

/-- C18 (stale tags are not removed while any tag is desired): when both
configurations are present, `IsEqual` holds, the status is Active, the desired
tags are non-empty and every desired entry is in the current tags with the
same value, `Create` returns the empty list with a nil error, also when the
current tags hold further keys. -/
theorem Create_stale_tags_kept
    (hc : p.currentIdentityProvider = some current) (hd : p.desiredIdentityProvider = some desired)
    (he : IsEqual current desired = true) (hs : current.Status = some ConfigStatusActive)
    (hne : desired.Tags.len ≠ 0)
    (hsub : ∀ k v, desired.Tags.get k = some v → current.Tags.get k = some v) :
    Create IsEqual p = .ok ([], none) := by
  have hz : ¬ 0 < (desired.Tags.Difference current.Tags).len := by
    intro hpos
    obtain ⟨k, v, h1, h2⟩ := (Tags.Difference_len_pos_iff desired.Tags current.Tags).mp hpos
    exact h2 (hsub k v h1)
  have hr : ¬ (desired.Tags.len = 0 ∧ current.Tags.len ≠ 0) := fun h => hne h.1
  have hw : current.Status ≠ some ConfigStatusCreating := by
    rw [hs]
    decide
  rw [Create_equal IsEqual p current desired hc hd he, if_neg hz, if_neg hr, if_neg hw]
  rfl

/-- Stale tags at the input of the claim: desired tags `{a:1}`, current tags
`{a:1, b:2}`; the key `b` stays. -/
theorem Create_stale_tags_kept_witness :
    tagsAB.get "b" = some "2" ∧ tagsA.get "b" = none ∧
    Create paramsEqual
        (mkPlan (some (cfg "x" (some "ACTIVE") tagsAB)) (some (cfg "x" none tagsA))) =
      .ok ([], none) :=
  ⟨by decide, by decide,
   Create_stale_tags_kept paramsEqual _ _ _ rfl rfl (by decide) rfl (by decide)
     (fun k v h => by
        have hm := lookup_mem h
        simp only [cfg, tagsA, List.mem_singleton, Prod.mk.injEq] at hm
        obtain ⟨rfl, rfl⟩ := hm
        decide)⟩

/-- C19 (bounded, duplicate-free plans): for every input, `Create` returns a
list with a nil error that has at most two procedures and no kind twice, and a
list of two procedures is a tag procedure, UpdateTags or RemoveTags, followed
by WaitUntilAssociated. -/
theorem Create_bounded_nodup :
    ∃ procs, Create IsEqual p = .ok (procs, none) ∧
      procs.length ≤ 2 ∧ (kinds procs).Nodup ∧
      (procs.length = 2 →
        kinds procs = [.UpdateTags, .WaitUntilAssociated] ∨
        kinds procs = [.RemoveTags, .WaitUntilAssociated]) := by
  obtain ⟨procs, h, hk⟩ := Create_kinds_cases IsEqual p
  refine ⟨procs, h, ?_⟩
  have hl : procs.length = (kinds procs).length := by simp [kinds]
  rw [hl]
  generalize kinds procs = ks at hk
  simp only [List.mem_cons, List.mem_singleton, List.not_mem_nil, or_false] at hk
  rcases hk with rfl | rfl | rfl | rfl | rfl | rfl | rfl | rfl <;> decide

/-- C20 (no absent configuration is dereferenced): for every input, whichever
of the two configurations is nil, `Create` does not end in a panic, so each
read through `currentIdentityProvider` or `desiredIdentityProvider` is reached
with that pointer non-nil; and a nil status of the current configuration is
read as the empty string, which is neither Active nor Creating, so that the
plan has no WaitUntilAssociated and is empty when the desired configuration is
nil. -/
theorem Create_no_nil_dereference :
    (∀ e, Create IsEqual p ≠ .error e) ∧
    (∀ cur, p.currentIdentityProvider = some cur → cur.Status = none →
      StringValue cur.Status = "" ∧
      StringValue cur.Status ≠ ConfigStatusActive ∧
      StringValue cur.Status ≠ ConfigStatusCreating ∧
      ∃ procs, Create IsEqual p = .ok (procs, none) ∧
        ProcedureKind.WaitUntilAssociated ∉ kinds procs ∧
        (p.desiredIdentityProvider = none → procs = [])) := by
  constructor
  · intro e he
    obtain ⟨procs, h, _⟩ := Create_kinds_cases IsEqual p
    rw [h] at he
    cases he
  · intro cur hc hs
    have hA : cur.Status ≠ some ConfigStatusActive := by simp [hs]
    have hC : cur.Status ≠ some ConfigStatusCreating := by simp [hs]
    refine ⟨by rw [hs]; rfl, by rw [hs]; decide, by rw [hs]; decide, ?_⟩
    rcases hd : p.desiredIdentityProvider with _ | des
    · exact ⟨_, Create_desired_nil IsEqual p cur hc hd, by simp [kinds, hA], by simp [hA]⟩
    · cases he : IsEqual cur des
      · exact ⟨_, Create_not_equal IsEqual p cur des hc hd he, by simp [kinds, Procedure.kind],
          by simp⟩
      · refine ⟨_, Create_equal IsEqual p cur des hc hd he, ?_, by simp⟩
        simp only [if_neg hC, List.append_nil]
        split_ifs <;> simp [kinds, Procedure.kind]

/-- No panic and the nil-status path at concrete inputs: all four nil and
non-nil combinations return, and a current configuration with a nil status is
neither torn down nor waited for. -/
theorem Create_no_nil_dereference_witness :
    (∀ e, Create paramsEqual (mkPlan none none) ≠ .error e) ∧
    (∀ e, Create paramsEqual (mkPlan none (some (cfg "x" none tagsA))) ≠ .error e) ∧
    (∀ e, Create paramsEqual (mkPlan (some (cfg "x" none tagsA)) none) ≠ .error e) ∧
    (∀ e, Create paramsEqual
      (mkPlan (some (cfg "x" none tagsA)) (some (cfg "x" none tagsA))) ≠ .error e) ∧
    (∃ procs, Create paramsEqual (mkPlan (some (cfg "x" none tagsA)) none) = .ok (procs, none) ∧
      procs = []) :=
  ⟨(Create_no_nil_dereference paramsEqual _).1,
   (Create_no_nil_dereference paramsEqual _).1,
   (Create_no_nil_dereference paramsEqual _).1,
   (Create_no_nil_dereference paramsEqual _).1,
   by
     obtain ⟨_, _, _, procs, h, _, h0⟩ :=
       (Create_no_nil_dereference paramsEqual (mkPlan (some (cfg "x" none tagsA)) none)).2
         (cfg "x" none tagsA) rfl rfl
     exact ⟨procs, h, h0 rfl⟩⟩

end identityprovider
